import Mathlib

/-!
Verification of the wiki_import extraction pipeline (import_wikipedia.py and
update_wikidata.py) against its natural-language specification.

The Python code is shallowly embedded: JSON/Python values become the inductive
type `JVal`, Python dicts become association lists kept in insertion order
(Python 3.7+ dict iteration order is insertion order), raising code returns
`Except PyErr`, and `None` becomes `JVal.null` (or `Option` where Python
locals can hold `None`).  Strings are modelled at the code-point level
(Python `len`/slicing work on code points, matching `String.data`).
Character-class operations (`str.lower`, `str.strip`, `\s`) are modelled for
the ASCII range.
-/

/-- A Python/JSON value as produced by `json.loads`.  Numbers are modelled as
rationals (no floating-point arithmetic is ever performed on them by the
embedded code paths: values are only passed through, compared, and sorted). -/
inductive JVal where
  | null : JVal
  | bool : Bool → JVal
  | num : ℚ → JVal
  | str : String → JVal
  | arr : List JVal → JVal
  | obj : List (String × JVal) → JVal

/-- Python exceptions that the embedded code can raise. -/
inductive PyErr where
  | keyError (key : String) : PyErr
  | typeError : PyErr
  | valueError : PyErr
  | attributeError : PyErr
  | indexError : PyErr
deriving DecidableEq

mutual

/-- Python `==` on values (structural equality; only like kinds compare equal,
which is accurate for the string/number/list/dict values that occur here). -/
def jeqV : JVal → JVal → Bool
  | .null, .null => true
  | .bool a, .bool b => a = b
  | .num a, .num b => a = b
  | .str a, .str b => a = b
  | .arr a, .arr b => jeqL a b
  | .obj a, .obj b => jeqO a b
  | _, _ => false

/-- Python `==` on lists of values. -/
def jeqL : List JVal → List JVal → Bool
  | [], [] => true
  | a :: as_, b :: bs => jeqV a b && jeqL as_ bs
  | _, _ => false

/-- Python `==` on dicts (modelled positionally on the association lists;
faithful for the insertion-ordered, duplicate-free dicts that arise here). -/
def jeqO : List (String × JVal) → List (String × JVal) → Bool
  | [], [] => true
  | (k, a) :: as_, (k', b) :: bs => k = k' && jeqV a b && jeqO as_ bs
  | _, _ => false

end

/-- Python truthiness (`bool(x)`): `None`, `False`, `0`, `''`, `[]`, `{}`
are falsy, everything else truthy. -/
def truthy : JVal → Bool
  | .null => false
  | .bool b => b
  | .num q => q ≠ 0
  | .str s => s ≠ ""
  | .arr xs => !xs.isEmpty
  | .obj fs => !fs.isEmpty

/-- Truthiness of a Python local that may be unassigned/`None` (`Option`). -/
def truthyO : Option JVal → Bool
  | none => false
  | some v => truthy v

/-- Dict lookup (`d.get(k)` without default): first binding for the key. -/
def dGet (fs : List (String × JVal)) (k : String) : Option JVal :=
  (fs.find? (fun p => p.1 = k)).map (fun p => p.2)

/-- `d[k] = v` on a dict: replace in place if the key exists, else append
(Python dict assignment keeps the original insertion position). -/
def dSet : List (String × JVal) → String → JVal → List (String × JVal)
  | [], k, v => [(k, v)]
  | (k', v') :: rest, k, v =>
    if k' = k then (k', v) :: rest else (k', v') :: dSet rest k v

/-- The external id→label lookup (`id_name_map`), a string-keyed dict. -/
abbrev IdMap := List (String × String)

/-- `id_name_map.get(k)`. -/
def IdMap.get? (m : IdMap) (k : String) : Option String :=
  (m.find? (fun p => p.1 = k)).map (fun p => p.2)

/-- `k in id_name_map`. -/
def IdMap.hasKey (m : IdMap) (k : String) : Bool :=
  m.any (fun p => p.1 = k)

/-- Is `pat` a contiguous infix of `l`?  (Python `sub in str`.) -/
def listContains (pat : List Char) : List Char → Bool
  | [] => pat.isEmpty
  | c :: rest => pat.isPrefixOf (c :: rest) || listContains pat rest

/-- Python `key in value`: key membership for dicts, element equality for
lists, substring test for strings, `TypeError` otherwise. -/
def pyIn (k : String) (v : JVal) : Except PyErr Bool :=
  match v with
  | .obj fs => .ok (fs.any (fun p => p.1 = k))
  | .arr xs => .ok (xs.any (fun x => jeqV x (.str k)))
  | .str s => .ok (listContains k.data s.data)
  | _ => .error .typeError

/-- Python subscription `v[k]`: `KeyError` for a dict missing the key (all
dicts here are string-keyed, so non-string hashable keys are always absent
and unhashable keys raise `TypeError`), index access with negative-index
wraparound for lists, `TypeError` for the rest. -/
def pySub (v : JVal) (k : JVal) : Except PyErr JVal :=
  match v, k with
  | .obj fs, .str s => match dGet fs s with
    | some x => .ok x
    | none => .error (.keyError s)
  | .obj _, .num _ => .error (.keyError "")
  | .obj _, .bool _ => .error (.keyError "")
  | .obj _, .null => .error (.keyError "")
  | .obj _, _ => .error .typeError
  | .arr xs, .num q =>
    if q.den = 1 then
      let i : Int := if q.num < 0 then q.num + xs.length else q.num
      if h : 0 ≤ i ∧ i < xs.length then
        .ok (xs.get ⟨i.toNat, by omega⟩)
      else .error .indexError
    else .error .typeError
  | _, _ => .error .typeError

/-- Python iteration `for x in v`: dict yields its keys in insertion order,
list its elements, string its characters (as 1-char strings); other values
raise `TypeError`. -/
def pyIter : JVal → Except PyErr (List JVal)
  | .obj fs => .ok (fs.map (fun p => .str p.1))
  | .arr xs => .ok xs
  | .str s => .ok (s.data.map (fun c => .str (String.mk [c])))
  | _ => .error .typeError

/-- `s.rsplit('/', 1)[-1]`: everything after the last `/` (the whole string
when there is no `/`). -/
def lastSegment (s : String) : String :=
  String.mk ((s.data.reverse.takeWhile (fun c => c ≠ '/')).reverse)

example : lastSegment "http://www.wikidata.org/entity/Q2" = "Q2" := by decide
example : lastSegment "Q2" = "Q2" := by decide
example : truthy (.num 48) = true := by decide
example : truthy (.num 0) = false := by decide
example : toString (123 : Nat) = "123" := by rfl

/-! ## update_wikidata.py -/

/-- The numeric value of a maximal run of digits (`int` on a digit string). -/
def natOfDigits (ds : List Char) : Nat :=
  ds.foldl (fun n c => 10 * n + (c.toNat - 48)) 0

/-- Parse exactly two digits (`[0-9][0-9]`). -/
def parse2 : List Char → Option (Nat × List Char)
  | a :: b :: rest =>
    if a.isDigit && b.isDigit then some ((a.toNat - 48) * 10 + (b.toNat - 48), rest)
    else none
  | _ => none

/-- Consume one expected literal character. -/
def expectChar (c : Char) : List Char → Option (List Char)
  | x :: rest => if x = c then some rest else none
  | [] => none

/-- `DATE_PARSE_RE.match(...)` for the pattern
`([-+]?[0-9]+)-([0-9][0-9])-([0-9][0-9])T([0-9][0-9]):([0-9][0-9]):([0-9][0-9])Z?`
with the six groups already converted by `map(int, ...)`.  `re.match` anchors
only at the start, so trailing input (the optional `Z` included) is
unconstrained; `[0-9]+` is maximal-munch here since the following literal is
`-`, so no backtracking arises. -/
def parseTime (s : String) : Option (Int × Nat × Nat × Nat × Nat × Nat) := do
  let cs := s.data
  let (sign, cs1) : Int × List Char :=
    match cs with
    | '-' :: rest => (-1, rest)
    | '+' :: rest => (1, rest)
    | _ => (1, cs)
  let ds := cs1.takeWhile Char.isDigit
  if ds.isEmpty then none else do
  let cs2 := cs1.dropWhile Char.isDigit
  let cs3 ← expectChar '-' cs2
  let (mo, cs4) ← parse2 cs3
  let cs5 ← expectChar '-' cs4
  let (d, cs6) ← parse2 cs5
  let cs7 ← expectChar 'T' cs6
  let (h, cs8) ← parse2 cs7
  let cs9 ← expectChar ':' cs8
  let (mi, cs10) ← parse2 cs9
  let cs11 ← expectChar ':' cs10
  let (se, _) ← parse2 cs11
  return (sign * natOfDigits ds, mo, d, h, mi, se)

/-- Zero-pad on the left to width `w` (the digit part of `%0wd`). -/
def zfill (w : Nat) (s : String) : String :=
  String.mk (List.replicate (w - s.data.length) '0') ++ s

/-- Python `'%0wd' % n`: the minus sign counts towards the width. -/
def fmtInt (w : Nat) (n : Int) : String :=
  if n < 0 then "-" ++ zfill (w - 1) (toString n.natAbs) else zfill w (toString n.natAbs)

/-- Line 44: `'%04d-%02d-%02dT%02d:%02d:%02d' % (year, month, day, hour,
minute, second)`. -/
def formatTime (y : Int) (mo d h mi se : Nat) : String :=
  fmtInt 4 y ++ "-" ++ fmtInt 2 mo ++ "-" ++ fmtInt 2 d ++ "T" ++
    fmtInt 2 h ++ ":" ++ fmtInt 2 mi ++ ":" ++ fmtInt 2 se

/-- Python `float(x)` as used on `value['amount']`: numbers pass through,
booleans coerce, strings parse as optionally-signed decimal literals
(the forms Wikidata amounts take), anything else raises. -/
def parseDecimal (cs0 : List Char) : Option ℚ :=
  let (sgn, cs) : ℚ × List Char :=
    match cs0 with
    | '+' :: rest => (1, rest)
    | '-' :: rest => (-1, rest)
    | _ => (1, cs0)
  let ip := cs.takeWhile Char.isDigit
  let rest := cs.dropWhile Char.isDigit
  match rest with
  | [] => if ip.isEmpty then none else some (sgn * natOfDigits ip)
  | '.' :: fp =>
    if fp.all Char.isDigit && !(ip.isEmpty && fp.isEmpty) then
      some (sgn * ((natOfDigits ip : ℚ) + (natOfDigits fp : ℚ) / ((10 : ℚ) ^ fp.length)))
    else none
  | _ => none

/-- `float(...)` (line 46). -/
def pyFloat : JVal → Except PyErr ℚ
  | .num q => .ok q
  | .bool b => .ok (if b then 1 else 0)
  | .str s =>
    match parseDecimal s.data with
    | some q => .ok q
    | none => .error .valueError
  | _ => .error .typeError

/-- The `globecoordinate` branch of `map_value` (lines 49-59). -/
def resolveGlobeCoordinate (v : JVal) (id_name_map : IdMap) : Except PyErr (Option JVal) :=
  match v with
  | .obj fs =>
    let lat := (dGet fs "latitude").getD .null
    let lng := (dGet fs "longitude").getD .null
    if truthy lat || truthy lng then
      match (dGet fs "globe").getD (.str "") with
      | .str g =>
        let globe := lastSegment g
        let res := [("lat", lat), ("lng", lng)]
        let res := if globe ≠ "Q2" && IdMap.hasKey id_name_map globe then
            res ++ [("globe", .str globe)] else res
        let alt := (dGet fs "altitude").getD .null
        let res := if truthy alt then res ++ [("altitude", alt)] else res
        .ok (some (.obj res))
      | _ => .error .attributeError        -- `.rsplit` on a non-string globe
    else .ok none
  | _ => .error .attributeError            -- `.get` on a non-dict

/-- The type-dispatch of `map_value` (lines 30-61) after `typ = value['type']`
and `value = value['value']` have been read. -/
def map_value_typed (typ v : JVal) (id_name_map : IdMap) : Except PyErr (Option JVal) :=
  if jeqV typ (.str "string") then .ok (some v)
  else if jeqV typ (.str "wikibase-entityid") then
    match pySub v (.str "id") with
    | .error e => .error e
    | .ok (.str eid) => .ok ((id_name_map.get? eid).map JVal.str)
    | .ok (.arr _) => .error .typeError      -- unhashable `dict.get` key
    | .ok (.obj _) => .error .typeError
    | .ok _ => .ok none                      -- hashable non-string key: never a map key
  else if jeqV typ (.str "time") then
    match pySub v (.str "time") with
    | .error e => .error e
    | .ok (.str ts) =>
      match parseTime ts with
      | none => .ok none
      | some (y, mo, d, h, mi, se) =>
        .ok (some (.str (formatTime y (if mo = 0 then 1 else mo) (if d = 0 then 1 else d) h mi se)))
    | .ok _ => .error .typeError             -- `re.match` on a non-string
  else if jeqV typ (.str "quantity") then
    match pySub v (.str "amount") with
    | .error e => .error e
    | .ok a => (pyFloat a).map (fun q => some (.num q))
  else if jeqV typ (.str "monolingualtext") then
    match pySub v (.str "text") with
    | .error e => .error e
    | .ok t => .ok (some t)
  else if jeqV typ (.str "globecoordinate") then resolveGlobeCoordinate v id_name_map
  else .ok none

/-- `map_value` (lines 25-61): resolve one raw `datavalue` to a normalized
value; `Except.ok none` models the Python `None` return ("no value").  The
argument is the value of `mainsnak.get('datavalue')` (`JVal.null` when the
key was absent). -/
def map_value (value : JVal) (id_name_map : IdMap) : Except PyErr (Option JVal) :=
  if !truthy value then .ok none else
  match pyIn "type" value with
  | .error e => .error e
  | .ok tIn =>
    if !tIn then .ok none else
    match pyIn "value" value with
    | .error e => .error e
    | .ok vIn =>
      if !vIn then .ok none else
      match pySub value (.str "type") with
      | .error e => .error e
      | .ok typ =>
        match pySub value (.str "value") with
        | .error e => .error e
        | .ok v => map_value_typed typ v id_name_map

/-- The rank buckets (`ranks = defaultdict(list)`), keyed by the raw value of
`claim['rank']`. -/
abbrev Ranks := List (JVal × List JVal)

/-- Reading `ranks[k]` (a `defaultdict`, so a missing key reads as `[]`). -/
def ranksGet : Ranks → JVal → List JVal
  | [], _ => []
  | (k', l) :: rest, k => if jeqV k' k then l else ranksGet rest k

/-- Storing back a bucket: in place if the key exists, appended otherwise
(the `defaultdict` inserts missing keys at the end). -/
def rset : Ranks → JVal → List JVal → Ranks
  | [], k, l => [(k, l)]
  | (k', l') :: rest, k, l =>
    if jeqV k' k then (k', l) :: rest else (k', l') :: rset rest k l

/-- Lines 113-116: `lst = ranks[claim['rank']]; if mainsnak['datavalue']
.get('type') != 'wikibase-entityid': del lst[:]; lst.append(data_value)` —
a non-entity value first clears the bucket, an entity value appends. -/
def add_to_ranks (ranks : Ranks) (rankKey : JVal) (is_entity : Bool) (v : JVal) : Ranks :=
  rset ranks rankKey ((if is_entity then ranksGet ranks rankKey else []) ++ [v])

/-- The body of the statement loop (lines 108-116) folded over the claims of
one property. -/
def buildRanksGo : List JVal → IdMap → Ranks → Except PyErr Ranks
  | [], _, ranks => .ok ranks
  | claim :: rest, m, ranks =>
    match claim with
    | .obj cfs =>
      let mainsnak := (dGet cfs "mainsnak").getD .null
      if truthy mainsnak then
        match mainsnak with
        | .obj msfs => do
          let dv := (dGet msfs "datavalue").getD .null
          let data_value ← map_value dv m
          match data_value with
          | some r =>
            if truthy r then do
              let rank ← pySub (.obj cfs) (.str "rank")
              let dv2 ← pySub (.obj msfs) (.str "datavalue")
              let typ ← match dv2 with
                | .obj d2 => Except.ok ((dGet d2 "type").getD .null)
                | _ => Except.error PyErr.attributeError
              buildRanksGo rest m (add_to_ranks ranks rank (jeqV typ (.str "wikibase-entityid")) r)
            else buildRanksGo rest m ranks
          | none => buildRanksGo rest m ranks
        | _ => .error .attributeError        -- `mainsnak.get` on a non-dict
      else buildRanksGo rest m ranks
    | _ => .error .attributeError            -- `claim.get` on a non-dict

/-- Lines 107-116: bucket the resolvable statements of one property by rank. -/
def buildRanks (claims : JVal) (m : IdMap) : Except PyErr Ranks := do
  let items ← pyIter claims
  buildRanksGo items m []

/-- Python `sorted(...)` on a rank bucket: homogeneous string or number lists
sort ascending (code-point order for strings); two or more values of mixed or
unorderable kinds raise `TypeError`.  Lists of length ≤ 1 involve no
comparison. -/
def insortStr (x : String) : List String → List String
  | [] => [x]
  | y :: ys => if y < x then y :: insortStr x ys else x :: y :: ys

def sortStrs : List String → List String
  | [] => []
  | x :: xs => insortStr x (sortStrs xs)

def insortQ (x : ℚ) : List ℚ → List ℚ
  | [] => [x]
  | y :: ys => if y < x then y :: insortQ x ys else x :: y :: ys

def sortQs : List ℚ → List ℚ
  | [] => []
  | x :: xs => insortQ x (sortQs xs)

def pySorted (l : List JVal) : Except PyErr (List JVal) :=
  if l.length ≤ 1 then .ok l
  else if l.all (fun x => match x with | .str _ => true | _ => false) then
    .ok ((sortStrs (l.filterMap (fun x => match x with | .str s => some s | _ => none))).map JVal.str)
  else if l.all (fun x => match x with | .num _ => true | _ => false) then
    .ok ((sortQs (l.filterMap (fun x => match x with | .num q => some q | _ => none))).map JVal.num)
  else .error .typeError

/-- Lines 120-123: a singleton bucket collapses to its element, a longer one
is sorted. -/
def collapse (l : List JVal) : Except PyErr JVal :=
  match l with
  | [x] => .ok x
  | _ => (pySorted l).map JVal.arr

/-- Lines 117-125: the first non-empty bucket among the literal rank keys
`'preferred'`, `'normal'`, `'depricated'` — the code's spelling — wins. -/
def chooseValue (ranks : Ranks) : Except PyErr (Option JVal) :=
  match ranksGet ranks (.str "preferred") with
  | [] =>
    match ranksGet ranks (.str "normal") with
    | [] =>
      match ranksGet ranks (.str "depricated") with
      | [] => .ok none
      | l => (collapse l).map some
    | l => (collapse l).map some
  | l => (collapse l).map some

/-- The property loop of lines 104-125, folded over `d['claims'].items()`. -/
def buildProperties : List (String × JVal) → IdMap → List (String × JVal) →
    Except PyErr (List (String × JVal))
  | [], _, props => .ok props
  | (prop_id, claims) :: rest, m, props =>
    match m.get? prop_id with
    | some prop_name =>
      if prop_name ≠ "" then do          -- `if prop_name:`
        let ranks ← buildRanks claims m
        let value ← chooseValue ranks
        match value with
        | some v => buildProperties rest m (dSet props prop_name v)
        | none => buildProperties rest m props
      else buildProperties rest m props
    | none => buildProperties rest m props

/-- Line 71: `[d['labels'][x]['value'] for x in d.get('labels', {})]`. -/
def labelsValues : List (String × JVal) → Except PyErr (List JVal)
  | [] => .ok []
  | (_, entry) :: rest =>
    match pySub entry (.str "value") with
    | .error e => .error e
    | .ok v => (labelsValues rest).map (fun vs => v :: vs)

/-- Line 72: `d['labels'].get('en', {}).get('value')`. -/
def labelsTitle (lfs : List (String × JVal)) : Except PyErr (Option JVal) :=
  match (dGet lfs "en").getD (.obj []) with
  | .obj efs => .ok (dGet efs "value")
  | _ => .error .attributeError

/-- Line 79: `[d.get('sitelinks')[x]['title'] for x in d.get('sitelinks', {})]`. -/
def sitelinksTitles (fs : List (String × JVal)) : Except PyErr (List JVal) := do
  let iterSrc := (dGet fs "sitelinks").getD (.obj [])
  let subSrc := (dGet fs "sitelinks").getD .null
  let keys ← pyIter iterSrc
  keys.mapM (fun x => do
    let e ← pySub subSrc x
    pySub e (.str "title"))

/-- Line 80: `d.get('sitelinks', {}).get('enwiki', {}).get('title')`. -/
def enwikiTitle (fs : List (String × JVal)) : Except PyErr (Option JVal) :=
  match (dGet fs "sitelinks").getD (.obj []) with
  | .obj sfs =>
    match (dGet sfs "enwiki").getD (.obj []) with
    | .obj efs => .ok (dGet efs "title")
    | _ => .error .attributeError
  | _ => .error .attributeError

/-- Lines 76-82: the `try`/bare-`except` block computing `sitelinks` and
`wikipedia_id`; any failure is swallowed, keeping what was assigned before
the failing expression. -/
def computeSitelinks (fs : List (String × JVal)) : Option (List JVal) × Option JVal :=
  match sitelinksTitles fs with
  | .error _ => (none, none)
  | .ok sl =>
    match enwikiTitle fs with
    | .error _ => (some sl, none)
    | .ok wid => (some sl, wid)

/-- Lines 84-88: the `try`/bare-`except` block computing `description`. -/
def computeDescription (fs : List (String × JVal)) : Option JVal :=
  match dGet fs "descriptions" with
  | none => none                           -- `KeyError`, swallowed
  | some dv =>
    match dv with
    | .obj dfs =>
      match (dGet dfs "en").getD (.obj []) with
      | .obj efs => dGet efs "value"
      | _ => none                          -- `AttributeError`, swallowed
    | _ => none                            -- `AttributeError`, swallowed

/-- The non-`None` return value of `parse_props` (line 127). -/
structure EntityRecord where
  wikipedia_id : JVal
  title : JVal
  labels : List JVal
  sitelinks : Option (List JVal)
  description : Option JVal
  properties : List (String × JVal)

/-- `parse_props` (lines 64-129).  `Except.ok none` models the all-`None`
6-tuple return; `Except.error` an escaping exception.  Note line 94 reads
`d['claims']` with a bare subscript, after the truthiness of `wikipedia_id`
and `title` short-circuits. -/
def parse_props (d : JVal) (id_name_map : IdMap) : Except PyErr (Option EntityRecord) :=
  match d with
  | .obj fs =>
    match dGet fs "labels" with
    | some (.obj lfs) =>
      if lfs.isEmpty then .ok none         -- `d.get('labels')` falsy
      else
        match labelsValues lfs with
        | .error e => .error e
        | .ok labels =>
          match labelsTitle lfs with
          | .error e => .error e
          | .ok title =>
            let slw := computeSitelinks fs
            let description := computeDescription fs
            let props0 := [("sitelinks", (dGet fs "sitelinks").getD .null),
                           ("labels", (dGet fs "labels").getD .null)]
            if truthyO slw.2 && truthyO title then
              match dGet fs "claims" with
              | none => .error (.keyError "claims")
              | some (.obj cfs) =>
                match buildProperties cfs id_name_map props0 with
                | .error e => .error e
                | .ok properties =>
                  .ok (some { wikipedia_id := (slw.2).getD .null,
                              title := title.getD .null,
                              labels := labels, sitelinks := slw.1,
                              description := description, properties := properties })
              | some _ => .ok none         -- `type(d['claims']) != dict`
            else .ok none
    | _ => .ok none                        -- `labels` absent or not a dict
  | _ => .ok none                          -- `type(d) != dict`

/-- The `page`-close branch of `update_wikidata.WikiXmlHandler.endElement`
(lines 187-207).  `body` is the outcome of `json.loads` on the page's text
(`none`: a decode failure raising `ValueError`).  The handler catches
`mwparserfromhell.parser.ParserError` (never raised on this path) and
`ValueError`, logging and continuing; every other exception escapes.  The
`Bool` tells whether `self._count` was incremented. -/
def handle_entity_page (body : Option JVal) (m : IdMap) : Except PyErr Bool :=
  match body with
  | none => .ok false
  | some d =>
    match parse_props d m with
    | .ok _ => .ok true
    | .error .valueError => .ok false
    | .error e => .error e

/-- Feeding a stream of page bodies through the handler: how many pages were
counted, and the uncaught exception that aborted the stream, if any. -/
def run_entity_stream (pages : List (Option JVal)) (m : IdMap) : Nat × Option PyErr :=
  match pages with
  | [] => (0, none)
  | p :: rest =>
    match handle_entity_page p m with
    | .error e => (0, some e)
    | .ok b =>
      let r := run_entity_stream rest m
      ((if b then 1 else 0) + r.1, r.2)

/-! ## import_wikipedia.py -/

/-- ASCII whitespace, as recognized by Python `str.strip()` and `\s`. -/
def isPySpace (c : Char) : Bool :=
  c = ' ' || c = '\t' || c = '\n' || c = '\r' || c = '\x0b' || c = '\x0c'

/-- Python `str.strip()` (ASCII range; the names handled here are ASCII). -/
def pyStrip (s : String) : String :=
  String.mk (((s.data.dropWhile isPySpace).reverse.dropWhile isPySpace).reverse)

/-- Python `str.lower()` restricted to the ASCII range. -/
def pyLowerChar (c : Char) : Char :=
  if 'A' ≤ c && c ≤ 'Z' then Char.ofNat (c.toNat + 32) else c

def pyLower (s : String) : String := String.mk (s.data.map pyLowerChar)

/-- `x.strip().lower()`, the normalization inside `make_tags`. -/
def normalize_tag (x : String) : String := pyLower (pyStrip x)

/-- The element list of `set(x.strip().lower() for x in iterable if x and
len(x) < 256)` in a canonical deduplicated order.  A Python `set` fixes only
the membership, not the iteration order (string hashing is per-process
seed-randomized), so `make_tags` takes the iteration order as an explicit
parameter ranging over permutations of this list. -/
def make_tags_set (xs : List String) : List String :=
  ((xs.filter (fun x => x ≠ "" && x.data.length < 256)).map normalize_tag).dedup

/-- An admissible `set` iteration order: any permutation. -/
def ValidSetOrder (order : List String → List String) : Prop :=
  ∀ l, (order l).Perm l

/-- `make_tags` (lines 35-36): `list(set(x.strip().lower() for x in iterable
if x and len(x) < 256))` under the iteration order `order`. -/
def make_tags (order : List String → List String) (xs : List String) : List String :=
  order (make_tags_set xs)

/-- `strip_template_name` (lines 39-40): `name.strip_code().strip()`; the
external `strip_code` is modelled by handing over the rendered name string. -/
def strip_template_name (name : String) : String := pyStrip name

/-- One alternative of `( (in|of|by) )` in `RE_GENERAL`, plus the following
`(.+)` which — `.` never matching a newline, and the pattern having no `$`
anchor — only needs one non-newline character after the separator. -/
def trySep (rest : List Char) : Bool :=
  match rest with
  | c1 :: a :: b :: c4 :: t :: _ =>
    c1 = ' ' &&
      ((a = 'i' && b = 'n') || (a = 'o' && b = 'f') || (a = 'b' && b = 'y')) &&
      c4 = ' ' && t ≠ '\n'
  | _ => false

/-- The non-greedy head `(.+?)` of `RE_GENERAL` under `re.match`: grow the
head one non-newline character at a time, succeeding at the first position
where separator-and-tail match. -/
def goHead (acc : List Char) : List Char → Option (List Char)
  | [] => none
  | c :: rest =>
    if c = '\n' then none
    else if trySep rest then some (acc ++ [c])
    else goHead (acc ++ [c]) rest

/-- `extact_general` [sic] (lines 43-47): `RE_GENERAL.match(category)` for
`RE_GENERAL = re.compile('(.+?)( (in|of|by) )(.+)')` (line 15), returning
`m.groups()[0]` on a match and `None` otherwise. -/
def extact_general (category : String) : Option String :=
  (goHead [] category.data).map String.mk

/-- The separator-and-tail of the regex the spec words state,
`^(.+?)\s(in|of|by)\s(.+)$`: `\s` is any whitespace and `$` anchors the
greedy tail at the end of the string (or before one final newline). -/
def trySepSpec (rest : List Char) : Bool :=
  match rest with
  | w1 :: a :: b :: w2 :: tail =>
    isPySpace w1 &&
      ((a = 'i' && b = 'n') || (a = 'o' && b = 'f') || (a = 'b' && b = 'y')) &&
      isPySpace w2 &&
      (let run := tail.takeWhile (fun c => c ≠ '\n')
       let rest' := tail.dropWhile (fun c => c ≠ '\n')
       !run.isEmpty && (rest'.isEmpty || rest' = ['\n']))
  | _ => false

def goHeadSpec (acc : List Char) : List Char → Option (List Char)
  | [] => none
  | c :: rest =>
    if c = '\n' then none
    else if trySepSpec rest then some (acc ++ [c])
    else goHeadSpec (acc ++ [c]) rest

/-- Stated from the spec's words (for comparison with `extact_general`): the
head group of `^(.+?)\s(in|of|by)\s(.+)$`. -/
def spec_general (category : String) : Option String :=
  (goHeadSpec [] category.data).map String.mk

/-- Lines 88-92: scan a template-name list for the first name starting with
`INFOBOX_PREFIX = 'infobox '` (in the scanned list's own order) and strip
the prefix. -/
def find_infobox (template_names : List String) : Option String :=
  (template_names.find? (fun t => "infobox ".data.isPrefixOf t.data)).map
    (fun t => String.mk (t.data.drop 8))

/-- Stated from the spec's words (for comparison with `find_infobox` over
`make_tags`): the first normalized template name *of the page*, in the
page's template order, that starts with `infobox `, prefix stripped. -/
def spec_first_infobox (template_names : List String) : Option String :=
  ((template_names.map normalize_tag).find? (fun t => "infobox ".data.isPrefixOf t.data)).map
    (fun t => String.mk (t.data.drop 8))

/-- The row inserted into `import.wikipedia` (lines 100-101). -/
structure WikiRecord where
  id : String
  title : String
  infobox : Option String
  wikitext : String
  templates : List String
  categories : List String
  general : List String

/-- The outcome of the external wikitext parse (`mwparserfromhell.parse`
plus `filter_templates`/`filter_wikilinks`): either a `ParserError`, or the
template names (as rendered by the external `strip_code`) and the wikilink
target titles. -/
inductive ParseOutcome where
  | err : ParseOutcome
  | ok (templates : List String) (wikilinks : List String) : ParseOutcome

/-- One page as seen at `</page>`: the accumulated `_values` dict and the
parse outcome of its text. -/
structure WikiPage where
  values : List (String × String)
  parse : ParseOutcome

/-- Lookup in the `_values` dict. -/
def vGet (vs : List (String × String)) (k : String) : Option String :=
  (vs.find? (fun p => p.1 = k)).map (fun p => p.2)

/-- The `page`-close branch of `import_wikipedia.WikiXmlHandler.endElement`
(lines 83-109).  `Except.error`: an uncaught exception (a missing `_values`
key raises `KeyError`, which `except mwparserfromhell.parser.ParserError`
does not catch); otherwise the emitted row (`none` when the page was
dropped) together with the printed log lines.  The `templates` column (line
101) applies `make_tags` to the template objects; they are modelled through
the external parser's rendered name strings, which no claim inspects. -/
def handle_wiki_page (order : List String → List String) (p : WikiPage) :
    Except PyErr (Option WikiRecord × List String) :=
  match vGet p.values "text" with
  | none => .error (.keyError "text")          -- line 85
  | some text =>
    match p.parse with
    | .err =>
      match vGet p.values "title" with         -- line 108, inside the handler
      | none => .error (.keyError "title")
      | some t => .ok (none, ["mwparser error for: " ++ t])
    | .ok templates wikilinks =>
      let template_names := make_tags order (templates.map strip_template_name)
      let infobox := find_infobox template_names
      match vGet p.values "title" with         -- line 93
      | none => .error (.keyError "title")
      | some title =>
        if 1024 < (infobox.getD "").data.length || 1024 < title.data.length then
          .ok (none, ["Too long", "mwparser error for: " ++ title])
        else
          let categories := make_tags order
            ((wikilinks.filter (fun l => "Category:".data.isPrefixOf l.data)).map
              (fun l => String.mk (l.data.drop 9)))
          let general := make_tags order (categories.filterMap extact_general)
          match vGet p.values "id" with        -- line 101
          | none => .error (.keyError "id")
          | some id =>
            .ok (some { id := id, title := title, infobox := infobox,
                        wikitext := text, templates := make_tags order templates,
                        categories := categories, general := general }, [])

/-- Streaming pages through the handler: the number of emitted rows, and the
uncaught exception that aborted the stream, if any. -/
def run_wiki_stream (order : List String → List String) (pages : List WikiPage) :
    Nat × Option PyErr :=
  match pages with
  | [] => (0, none)
  | p :: rest =>
    match handle_wiki_page order p with
    | .error e => (0, some e)
    | .ok (r, _) =>
      let rr := run_wiki_stream order rest
      ((if r.isSome then 1 else 0) + rr.1, rr.2)

/-! ## The streaming field buffer (identical in both pipelines) -/

/-- The handler's mutable state: `self._buffer`, `self._state`,
`self._values`. -/
structure HandlerState where
  buffer : List String
  state : Option String
  values : List (String × String)

/-- `reset` (import_wikipedia lines 68-71, update_wikidata lines 170-173). -/
def resetState : HandlerState := { buffer := [], state := none, values := [] }

/-- `startElement` (lines 73-75 / 176-178). -/
def startElement (s : HandlerState) (name : String) : HandlerState :=
  if name = "title" || name = "text" || name = "id" then { s with state := some name } else s

/-- `characters` (lines 111-113 / 210-212). -/
def characters (s : HandlerState) (content : String) : HandlerState :=
  if s.state.isSome then { s with buffer := s.buffer ++ [content] } else s

/-- The field-commit part of `endElement` (lines 77-81 / 181-185): on closing
the active element, store `''.join(self._buffer)` into `_values` — but only
`if name not in self._values` — then clear state and buffer.  (The
`page`-close branch, lines 83+/187+, is modelled by the page handlers
above.) -/
def endElementField (s : HandlerState) (name : String) : HandlerState :=
  if s.state = some name then
    { buffer := [],
      state := none,
      values := if vGet s.values name = none
                then s.values ++ [(name, String.join s.buffer)]
                else s.values }
  else s

/-- A field-level markup event (element opens/closes other than `page`, and
text). -/
inductive SaxEvent where
  | start (name : String) : SaxEvent
  | chars (content : String) : SaxEvent
  | endEl (name : String) : SaxEvent

/-- Folding field-level events over the handler state. -/
def runEvents (s : HandlerState) : List SaxEvent → HandlerState
  | [] => s
  | .start n :: rest => runEvents (startElement s n) rest
  | .chars c :: rest => runEvents (characters s c) rest
  | .endEl n :: rest => runEvents (endElementField s n) rest

/-! ## Concrete inputs used by the claim theorems -/

/-- A statement whose datavalue is an entity reference resolving (via
`idMap1`) to `"X"`, rank `normal`. -/
def claimEntityX : JVal :=
  .obj [("mainsnak", .obj [("datavalue",
          .obj [("type", .str "wikibase-entityid"), ("value", .obj [("id", .str "Q5")])])]),
        ("rank", .str "normal")]

/-- A statement whose datavalue is the plain string `"raw string"`, rank
`normal`. -/
def claimRawString : JVal :=
  .obj [("mainsnak", .obj [("datavalue",
          .obj [("type", .str "string"), ("value", .str "raw string")])]),
        ("rank", .str "normal")]

/-- A statement whose datavalue is the plain string `"A"`, rank `deprecated`
(the spelling actually produced by Wikidata dumps). -/
def claimDeprecatedA : JVal :=
  .obj [("mainsnak", .obj [("datavalue",
          .obj [("type", .str "string"), ("value", .str "A")])]),
        ("rank", .str "deprecated")]

/-- Well-formed labels/sitelinks fields shared by the concrete records. -/
def baseFields : List (String × JVal) :=
  [("labels", .obj [("en", .obj [("value", .str "E")])]),
   ("sitelinks", .obj [("enwiki", .obj [("title", .str "W")])])]

/-- A minimal decoded entity record carrying the given statements under
property id `P1`. -/
def entityDoc (claims : List JVal) : JVal :=
  .obj (baseFields ++ [("claims", .obj [("P1", .arr claims)])])

/-- Lookup resolving property `P1` to name `prop` and entity `Q5` to `X`. -/
def idMap1 : IdMap := [("P1", "prop"), ("Q5", "X")]

/-- A decoded record with well-formed labels and an enwiki sitelink but no
`claims` key at all. -/
def entityDocNoClaims : JVal := .obj baseFields

/-- A fully well-formed decoded record (empty claims dict). -/
def goodEntityDoc : JVal := .obj (baseFields ++ [("claims", .obj [])])

/-! ## C1 -/

/-- C1 counterexample: a rank bucket built from the statement sequence
[entityRef resolving to "X", string "raw string"] of the same rank resolves
the property to the string "raw string" — the later non-entity value
cleared the bucket (line 115 `del lst[:]`) — not to `["X"]` as the claim
states. -/
theorem entity_precedence_counterexample :
    (match parse_props (entityDoc [claimEntityX, claimRawString]) idMap1 with
     | .ok (some r) => dGet r.properties "prop"
     | _ => none) = some (.str "raw string") ∧
    some (JVal.str "raw string") ≠ some (JVal.arr [.str "X"]) := by
  refine ⟨rfl, fun h => ?_⟩
  exact absurd (Option.some.inj h) (fun h2 => JVal.noConfusion h2)

/-- Reading back the bucket just stored under the same (string) rank key. -/
theorem ranksGet_rset (ranks : Ranks) (r : String) (l : List JVal) :
    ranksGet (rset ranks (.str r) l) (.str r) = l := by
  induction ranks with
  | nil => simp [rset, ranksGet, jeqV]
  | cons p rest ih =>
    obtain ⟨k', l'⟩ := p
    simp only [rset]
    split
    · simp [ranksGet, *]
    · simp [ranksGet, *]

/-- C1 (amended): within one rank bucket of the Statement Aggregator, a
resolved non-entity value first clears the bucket — discarding all
previously collected values, entity references included — and is then
appended, while an entity-reference value appends without clearing.  Hence
the sequence [entityRef resolving to "X", string "raw string"] of one rank
leaves the bucket at ["raw string"], not ["X"]. -/
theorem rank_bucket_step (r : String) (ranks : Ranks) (v : JVal) :
    ranksGet (add_to_ranks ranks (.str r) false v) (.str r) = [v] ∧
    ranksGet (add_to_ranks ranks (.str r) true v) (.str r) =
      ranksGet ranks (.str r) ++ [v] ∧
    buildRanks (.arr [claimEntityX, claimRawString]) idMap1 =
      .ok [(.str "normal", [.str "raw string"])] := by
  refine ⟨?_, ?_, rfl⟩
  · simpa [add_to_ranks] using ranksGet_rset ranks r [v]
  · simpa [add_to_ranks] using ranksGet_rset ranks r (ranksGet ranks (.str r) ++ [v])

/-! ## C2 -/

/-- C2: line 117 iterates the literal rank keys `'preferred'`, `'normal'`,
`'depricated'` — the last one misspelled — so a statement carrying the real
Wikidata rank spelling `deprecated` is bucketed but never selected: the
property mapping keeps only its two seed keys, even though the deprecated
bucket is non-empty.  The claim (first non-empty bucket in the priority
order preferred > normal > deprecated wins, so a deprecated-only property
still resolves) describes the evident intent; the code's spelling is the
slip. -/
theorem deprecated_rank_never_selected :
    (match parse_props (entityDoc [claimDeprecatedA]) idMap1 with
     | .ok (some r) => some r.properties
     | _ => none) =
      some [("sitelinks", .obj [("enwiki", .obj [("title", .str "W")])]),
            ("labels", .obj [("en", .obj [("value", .str "E")])])] ∧
    buildRanks (.arr [claimDeprecatedA]) idMap1 =
      .ok [(.str "deprecated", [.str "A"])] ∧
    chooseValue [(.str "deprecated", [.str "A"])] = .ok none := by
  exact ⟨rfl, rfl, rfl⟩

/-! ## C5 (counterexample) -/

/-- C5 counterexample: a decoded record with well-formed labels and an
enwiki sitelink but no `claims` key makes `parse_props` raise `KeyError`
(line 94 subscripts `d['claims']` directly), contradicting "no exception
escapes in any of these cases". -/
theorem parse_props_missing_claims_raises :
    parse_props entityDocNoClaims idMap1 = .error (.keyError "claims") := rfl

/-! ## C9 (counterexample) -/

/-- C9 counterexample: a 2-page stream whose first page is malformed in a
way that raises outside the caught exception kinds (missing `claims` key →
`KeyError`) aborts: 0 records are emitted, not N−1 = 1 — even though the
second, well-formed page alone would have been counted. -/
theorem stream_abort_counterexample :
    run_entity_stream [some entityDocNoClaims, some goodEntityDoc] idMap1 =
      (0, some (.keyError "claims")) ∧
    handle_entity_page (some goodEntityDoc) idMap1 = .ok true ∧
    (0 : Nat) ≠ 2 - 1 := by
  refine ⟨rfl, rfl, by decide⟩

/-! ## C10 -/

/-- C10 counterexample: two `title` elements inside one page.  Before the
second close the reconstructor is again in the `title` state with "B"
buffered, yet after that close the committed value is still "A" — the
second close did *not* commit the buffered text (line 79/183,
`if name not in self._values`), contradicting "this holds on every such
close". -/
theorem repeated_field_counterexample :
    (runEvents resetState [.start "title", .chars "A", .endEl "title",
                           .start "title", .chars "B"]).state = some "title" ∧
    (runEvents resetState [.start "title", .chars "A", .endEl "title",
                           .start "title", .chars "B"]).buffer = ["B"] ∧
    (runEvents resetState [.start "title", .chars "A", .endEl "title",
                           .start "title", .chars "B", .endEl "title"]).values =
      [("title", "A")] ∧
    ("A" : String) ≠ "B" := by
  refine ⟨rfl, rfl, rfl, by decide⟩

/-- C10 (amended): on close of a tracked field element while it is the
active state, the Streaming Page Reconstructor clears the buffer and the
active state, but commits the buffered text into the current page's field
only when that field has no committed value yet (`if name not in
self._values`): within one page the first occurrence wins and later
occurrences of the same field element are dropped. -/
theorem field_commit_first_wins (s : HandlerState) (name : String)
    (h : s.state = some name) :
    (endElementField s name).buffer = [] ∧
    (endElementField s name).state = none ∧
    (vGet s.values name = none →
      (endElementField s name).values = s.values ++ [(name, String.join s.buffer)]) ∧
    (vGet s.values name ≠ none →
      (endElementField s name).values = s.values) := by
  refine ⟨by simp [endElementField, h], by simp [endElementField, h], ?_, ?_⟩
  · intro hv; simp [endElementField, h, hv]
  · intro hv; simp [endElementField, h, hv]

/-- Witness for `field_commit_first_wins` at a concrete state: a second
`title` close with "B" buffered leaves the committed "A" unchanged. -/
theorem field_commit_first_wins_witness :
    (endElementField ⟨["B"], some "title", [("title", "A")]⟩ "title").values =
      [("title", "A")] ∧
    (endElementField ⟨["B"], some "title", []⟩ "title").values =
      [("title", "B")] := by
  constructor
  · exact (field_commit_first_wins ⟨["B"], some "title", [("title", "A")]⟩ "title" rfl).2.2.2
      (by decide)
  · exact ((field_commit_first_wins ⟨["B"], some "title", []⟩ "title" rfl).2.2.1
      (by decide)).trans rfl

/-! ## C7 -/

/-- The `time`-typed datavalue carrying the time string `s`. -/
def timeValue (s : String) : JVal :=
  .obj [("type", .str "time"), ("value", .obj [("time", .str s)])]

/-- C7: a time value whose `time` string matches `DATE_PARSE_RE` is
normalized by `'%04d-%02d-%02dT%02d:%02d:%02d'` with a zero month or zero
day coerced to 1; a string not matching the pattern yields "no value"; in
particular "1999-00-00T00:00:00Z" resolves to "1999-01-01T00:00:00". -/
theorem map_value_time (s : String) (m : IdMap) :
    (parseTime s = none → map_value (timeValue s) m = .ok none) ∧
    (∀ y mo d h mi se, parseTime s = some (y, mo, d, h, mi, se) →
      map_value (timeValue s) m =
        .ok (some (.str (formatTime y (if mo = 0 then 1 else mo)
          (if d = 0 then 1 else d) h mi se)))) ∧
    map_value (timeValue "1999-00-00T00:00:00Z") m =
      .ok (some (.str "1999-01-01T00:00:00")) := by
  have hbase : map_value (timeValue s) m =
      (match parseTime s with
       | none => .ok none
       | some (y, mo, d, h, mi, se) =>
         .ok (some (.str (formatTime y (if mo = 0 then 1 else mo)
           (if d = 0 then 1 else d) h mi se)))) := rfl
  refine ⟨fun hp => ?_, fun y mo d h mi se hp => ?_, rfl⟩
  · rw [hbase, hp]
  · rw [hbase, hp]

/-- Witness for `map_value_time`: the non-matching string "abc" yields "no
value", and the claim's example normalizes as stated. -/
theorem map_value_time_witness :
    map_value (timeValue "abc") [] = .ok none ∧
    map_value (timeValue "1999-00-00T00:00:00Z") [] =
      .ok (some (.str "1999-01-01T00:00:00")) :=
  ⟨(map_value_time "abc" []).1 rfl, (map_value_time "1999-00-00T00:00:00Z" []).2.2⟩

/-! ## C6 -/

/-- The `globecoordinate`-typed datavalue with the given coordinate dict. -/
def coordValue (fs : List (String × JVal)) : JVal :=
  .obj [("type", .str "globecoordinate"), ("value", .obj fs)]

/-- C6 counterexample: latitude and longitude both *present* but zero —
line 52 `if lat or lng` tests Python truthiness, not presence, so the
resolver yields "no value", contradicting "'no value' exactly when both
latitude and longitude are absent". -/
theorem coordinate_zero_counterexample :
    dGet [("latitude", .num 0), ("longitude", .num 0)] "latitude" = some (.num 0) ∧
    dGet [("latitude", .num 0), ("longitude", .num 0)] "longitude" = some (.num 0) ∧
    map_value (coordValue [("latitude", .num 0), ("longitude", .num 0)]) [] = .ok none := by
  exact ⟨rfl, rfl, rfl⟩

/-- The string content of `value.get('globe', '')` (line 54, before
`.rsplit`). -/
def globeStr (fs : List (String × JVal)) : String :=
  match (dGet fs "globe").getD (.str "") with
  | .str g => g
  | _ => ""

/-- C6 (amended): for a globe-coordinate value (with an absent or
string-valued globe field), the resolver yields "no value" exactly when
latitude and longitude are both absent *or Python-falsy (zero)*; otherwise
it returns an object with keys `lat` and `lng` bound to the given fields,
a `globe` key exactly when the URL-stripped globe id differs from "Q2" and
is known to the id→label lookup, and a truthy `altitude` passed through. -/
theorem map_value_globecoordinate (fs : List (String × JVal)) (m : IdMap)
    (hg : dGet fs "globe" = none ∨ ∃ g, dGet fs "globe" = some (.str g)) :
    (map_value (coordValue fs) m = .ok none ↔
      (truthy ((dGet fs "latitude").getD .null) ||
       truthy ((dGet fs "longitude").getD .null)) = false) ∧
    ((truthy ((dGet fs "latitude").getD .null) ||
      truthy ((dGet fs "longitude").getD .null)) = true →
      map_value (coordValue fs) m =
        .ok (some (.obj (
          [("lat", (dGet fs "latitude").getD .null),
           ("lng", (dGet fs "longitude").getD .null)] ++
          (if lastSegment (globeStr fs) ≠ "Q2" &&
              IdMap.hasKey m (lastSegment (globeStr fs)) then
            [("globe", .str (lastSegment (globeStr fs)))] else []) ++
          (if truthy ((dGet fs "altitude").getD .null) then
            [("altitude", (dGet fs "altitude").getD .null)] else []))))) := by
  have hbase : map_value (coordValue fs) m = resolveGlobeCoordinate (.obj fs) m := rfl
  have hglobe : (dGet fs "globe").getD (.str "") = .str (globeStr fs) := by
    rcases hg with hg | ⟨g, hg⟩ <;> simp [globeStr, hg]
  cases hcond : (truthy ((dGet fs "latitude").getD .null) ||
      truthy ((dGet fs "longitude").getD .null)) with
  | false =>
    have hnone : map_value (coordValue fs) m = .ok none := by
      rw [hbase]
      simp only [resolveGlobeCoordinate, hcond]
      rfl
    refine ⟨⟨fun _ => rfl, fun _ => hnone⟩, fun hc => ?_⟩
    exact absurd hc Bool.false_ne_true
  | true =>
    have hsome : map_value (coordValue fs) m =
        .ok (some (.obj (
          [("lat", (dGet fs "latitude").getD .null),
           ("lng", (dGet fs "longitude").getD .null)] ++
          (if lastSegment (globeStr fs) ≠ "Q2" &&
              IdMap.hasKey m (lastSegment (globeStr fs)) then
            [("globe", .str (lastSegment (globeStr fs)))] else []) ++
          (if truthy ((dGet fs "altitude").getD .null) then
            [("altitude", (dGet fs "altitude").getD .null)] else [])))) := by
      cases hgk : (decide (lastSegment (globeStr fs) ≠ "Q2") &&
          IdMap.hasKey m (lastSegment (globeStr fs))) <;>
      cases halt : truthy ((dGet fs "altitude").getD .null) <;>
      · rw [hbase]
        simp only [resolveGlobeCoordinate, hcond, hglobe, hgk, halt]
        simp
    refine ⟨⟨fun h0 => ?_, fun hc => ?_⟩, fun _ => hsome⟩
    · rw [hsome] at h0
      exact Option.noConfusion (Except.ok.inj h0)
    · exact absurd hc (by simp)


/-- Witness for `map_value_globecoordinate`: latitude 48, longitude 2 and no
globe field resolve to an object with exactly the `lat` and `lng` keys. -/
theorem map_value_globecoordinate_witness :
    map_value (coordValue [("latitude", .num 48), ("longitude", .num 2)])
      [("Q111", "Moon")] = .ok (some (.obj [("lat", .num 48), ("lng", .num 2)])) := by
  have h := (map_value_globecoordinate [("latitude", .num 48), ("longitude", .num 2)]
      [("Q111", "Moon")] (Or.inl rfl)).2 rfl
  exact h.trans (by rfl)

/-! ## C4 -/

/-- C4: a page whose title or extracted infobox exceeds 1024 characters is
not emitted — the length check (lines 93-95) raises
`mwparserfromhell.parser.ParserError('too long')`, caught by the per-record
handler (lines 107-108), which logs the page's title — and the rest of the
stream is processed exactly as without the page. -/
theorem oversized_page_dropped (order : List String → List String)
    (p : WikiPage) (rest : List WikiPage) (tms wls : List String)
    (title text : String)
    (htext : vGet p.values "text" = some text)
    (hparse : p.parse = .ok tms wls)
    (htitle : vGet p.values "title" = some title)
    (hlong : 1024 < title.data.length ∨
      1024 < ((find_infobox (make_tags order (tms.map strip_template_name))).getD "").data.length) :
    handle_wiki_page order p = .ok (none, ["Too long", "mwparser error for: " ++ title]) ∧
    run_wiki_stream order (p :: rest) = run_wiki_stream order rest := by
  have hcond : (decide (1024 <
      ((find_infobox (make_tags order (tms.map strip_template_name))).getD "").data.length) ||
      decide (1024 < title.data.length)) = true := by
    simp only [Bool.or_eq_true, decide_eq_true_eq]
    rcases hlong with h | h
    · exact Or.inr h
    · exact Or.inl h
  have h1 : handle_wiki_page order p =
      .ok (none, ["Too long", "mwparser error for: " ++ title]) := by
    simp only [handle_wiki_page, htext, hparse, htitle, hcond, if_true]
  have h2 : run_wiki_stream order (p :: rest) = run_wiki_stream order rest := by
    simp only [run_wiki_stream, h1]
    simp
  exact ⟨h1, h2⟩

/-- A page whose title has 1025 characters. -/
def longTitlePage : WikiPage :=
  { values := [("title", String.mk (List.replicate 1025 'a')), ("text", "X"), ("id", "7")],
    parse := .ok [] [] }

/-- Witness for `oversized_page_dropped` at a concrete 1025-character
title. -/
theorem oversized_page_dropped_witness :
    handle_wiki_page id longTitlePage =
      .ok (none, ["Too long", "mwparser error for: " ++ String.mk (List.replicate 1025 'a')]) ∧
    1024 < (String.mk (List.replicate 1025 'a')).data.length := by
  have hlen : (String.mk (List.replicate 1025 'a')).data.length = 1025 := by
    show (List.replicate 1025 'a').length = 1025
    exact List.length_replicate 1025 'a'
  refine ⟨(oversized_page_dropped id longTitlePage [] [] []
    (String.mk (List.replicate 1025 'a')) "X" rfl rfl rfl (Or.inl (by omega))).1, by omega⟩

/-! ## C3 -/

/-- C3 counterexample: with page templates ["Infobox a", "Infobox b"], the
list ["infobox b", "infobox a"] is an admissible iteration order of the
deduplicated normalized template-name set (a permutation of it), and the
prefix scan over it yields "b" — but the first prefixed normalized template
name *of the page* is "a".  `list(set(...))` (line 36) does not preserve
the page's template order, so the claim's "first ... of the page" fails. -/
theorem infobox_first_counterexample :
    List.Perm ["infobox b", "infobox a"] (make_tags_set ["Infobox a", "Infobox b"]) ∧
    find_infobox ["infobox b", "infobox a"] = some "b" ∧
    spec_first_infobox ["Infobox a", "Infobox b"] = some "a" ∧
    (some "b" : Option String) ≠ some "a" := by
  refine ⟨?_, rfl, rfl, by simp⟩
  have h : make_tags_set ["Infobox a", "Infobox b"] = ["infobox a", "infobox b"] := rfl
  rw [h]
  exact List.Perm.swap "infobox a" "infobox b" []

/-- C3 (amended): the `infobox` output is the prefix-stripped form of the
first template name carrying the `infobox ` prefix in the deduplicated
set's iteration order, which is unspecified and not necessarily the page
order.  For every admissible order: the output is null exactly when no
normalized template name has the prefix; any output is the prefix-stripped
form of some prefixed normalized name; and when a single distinct
normalized name carries the prefix (as in the ["Infobox settlement",
"Cite web"] example) the output is that name, prefix stripped, regardless
of the order. -/
theorem infobox_set_order (order : List String → List String)
    (horder : ValidSetOrder order) (names : List String) :
    (find_infobox (make_tags order names) = none ↔
      ∀ t ∈ make_tags_set names, ¬("infobox ".data.isPrefixOf t.data = true)) ∧
    (∀ r, find_infobox (make_tags order names) = some r →
      ∃ t ∈ make_tags_set names, "infobox ".data.isPrefixOf t.data = true ∧
        r = String.mk (t.data.drop 8)) ∧
    (∀ t ∈ make_tags_set names, "infobox ".data.isPrefixOf t.data = true →
      (∀ u ∈ make_tags_set names, "infobox ".data.isPrefixOf u.data = true → u = t) →
      find_infobox (make_tags order names) = some (String.mk (t.data.drop 8))) := by
  have hperm := horder (make_tags_set names)
  refine ⟨?_, ?_, ?_⟩
  · unfold find_infobox make_tags
    rw [Option.map_eq_none', List.find?_eq_none]
    constructor
    · intro h t ht
      exact h t (hperm.mem_iff.mpr ht)
    · intro h t ht
      exact h t (hperm.mem_iff.mp ht)
  · intro r hr
    unfold find_infobox make_tags at hr
    obtain ⟨t, hfind, hft⟩ := Option.map_eq_some'.mp hr
    have hp := List.find?_some hfind
    exact ⟨t, hperm.mem_iff.mp (List.mem_of_find?_eq_some hfind), hp, hft.symm⟩
  · intro t ht hpre huniq
    unfold find_infobox make_tags
    have hsome : (List.find? (fun u => "infobox ".data.isPrefixOf u.data)
        (order (make_tags_set names))).isSome := by
      rw [List.find?_isSome]
      exact ⟨t, hperm.mem_iff.mpr ht, hpre⟩
    obtain ⟨u, hu⟩ := Option.isSome_iff_exists.mp hsome
    have humem : u ∈ make_tags_set names :=
      hperm.mem_iff.mp (List.mem_of_find?_eq_some hu)
    have hup := List.find?_some hu
    rw [hu, huniq u humem hup]
    rfl

/-- Witness for `infobox_set_order`: the claim's example templates under the
identity order give infobox "settlement". -/
theorem infobox_set_order_witness :
    find_infobox (make_tags id ["Infobox settlement", "Cite web"]) = some "settlement" := by
  have h := (infobox_set_order id (fun l => List.Perm.refl l)
    ["Infobox settlement", "Cite web"]).2.2 "infobox settlement"
    (by decide) (by decide) (by decide)
  exact h.trans (by rfl)

/-! ## C5 (amended theorem) -/

/-- Is the value a Python dict? (`type(x) == dict`). -/
def isObjB : JVal → Bool
  | .obj _ => true
  | _ => false

/-- The line-70 condition: `labels` present, dict-shaped and non-empty. -/
def labelsUsable (fs : List (String × JVal)) : Bool :=
  match dGet fs "labels" with
  | some (.obj lfs) => !lfs.isEmpty
  | _ => false

/-- Every labels entry is a dict carrying a `value` key — what line 71 needs
in order not to raise. -/
def labelsWellFormed (lfs : List (String × JVal)) : Bool :=
  lfs.all (fun e => match e.2 with
    | .obj efs => (dGet efs "value").isSome
    | _ => false)

/-- A successful dict lookup comes from a member with the looked-up key. -/
theorem dGet_mem (fs : List (String × JVal)) (k : String) (v : JVal)
    (h : dGet fs k = some v) : ∃ p ∈ fs, p.1 = k ∧ p.2 = v := by
  unfold dGet at h
  obtain ⟨p, hfind, hpv⟩ := Option.map_eq_some'.mp h
  have hk := List.find?_some hfind
  exact ⟨p, List.mem_of_find?_eq_some hfind, by simpa using hk, hpv⟩

/-- Line 71 cannot raise on well-formed labels. -/
theorem labelsValues_ok (lfs : List (String × JVal))
    (h : labelsWellFormed lfs = true) : ∃ vs, labelsValues lfs = .ok vs := by
  induction lfs with
  | nil => exact ⟨[], rfl⟩
  | cons e rest ih =>
    obtain ⟨k, v⟩ := e
    simp only [labelsWellFormed, List.all_cons, Bool.and_eq_true] at h
    obtain ⟨h1, h2⟩ := h
    obtain ⟨vs, hvs⟩ := ih h2
    cases v with
    | obj efs =>
      cases hv : dGet efs "value" with
      | none => simp [hv] at h1
      | some x =>
        refine ⟨x :: vs, ?_⟩
        simp [labelsValues, pySub, hv, hvs]
        rfl
    | null => simp at h1
    | bool b => simp at h1
    | num q => simp at h1
    | str s => simp at h1
    | arr xs => simp at h1

/-- C5 (amended): `parse_props` returns the null record without raising
when the decoded object is not a dict; when it lacks a dict-shaped
non-empty `labels`; when (its labels entries being well-formed) the
wikipedia sitelink title or the usable label/title is missing (falsy); and
when its `claims` entry is present but not dict-shaped.  But when the
sitelink title and label are present and the `claims` key is absent
entirely, line 94's bare `d['claims']` subscript raises `KeyError` instead
of returning null. -/
theorem parse_props_null_conditions (m : IdMap) :
    (∀ d, isObjB d = false → parse_props d m = .ok none) ∧
    (∀ fs, labelsUsable fs = false → parse_props (.obj fs) m = .ok none) ∧
    (∀ fs lfs topt, dGet fs "labels" = some (.obj lfs) → lfs.isEmpty = false →
      labelsWellFormed lfs = true → labelsTitle lfs = .ok topt →
      (truthyO (computeSitelinks fs).2 && truthyO topt) = false →
      parse_props (.obj fs) m = .ok none) ∧
    (∀ fs lfs topt c, dGet fs "labels" = some (.obj lfs) → lfs.isEmpty = false →
      labelsWellFormed lfs = true → labelsTitle lfs = .ok topt →
      (truthyO (computeSitelinks fs).2 && truthyO topt) = true →
      dGet fs "claims" = some c → isObjB c = false →
      parse_props (.obj fs) m = .ok none) ∧
    (∀ fs lfs topt, dGet fs "labels" = some (.obj lfs) → lfs.isEmpty = false →
      labelsWellFormed lfs = true → labelsTitle lfs = .ok topt →
      (truthyO (computeSitelinks fs).2 && truthyO topt) = true →
      dGet fs "claims" = none →
      parse_props (.obj fs) m = .error (.keyError "claims")) := by
  refine ⟨?_, ?_, ?_, ?_, ?_⟩
  · intro d hd
    cases d with
    | null => rfl
    | bool b => rfl
    | num q => rfl
    | str s => rfl
    | arr xs => rfl
    | obj fs => simp [isObjB] at hd
  · intro fs hfu
    cases hdl : dGet fs "labels" with
    | none => simp [parse_props, hdl]
    | some v =>
      cases v with
      | obj lfs =>
        cases lfs with
        | nil => simp [parse_props, hdl]
        | cons a rest =>
          exfalso
          simp [labelsUsable, hdl] at hfu
      | null => simp [parse_props, hdl]
      | bool b => simp [parse_props, hdl]
      | num q => simp [parse_props, hdl]
      | str s => simp [parse_props, hdl]
      | arr xs => simp [parse_props, hdl]
  · intro fs lfs topt hl hne hwf hti hcond
    obtain ⟨vs, hvs⟩ := labelsValues_ok lfs hwf
    simp [parse_props, hl, hne, hvs, hti, hcond]
  · intro fs lfs topt c hl hne hwf hti hcond hc hco
    obtain ⟨vs, hvs⟩ := labelsValues_ok lfs hwf
    cases c <;> simp [isObjB] at hco <;>
      simp [parse_props, hl, hne, hvs, hti, hcond, hc]
  · intro fs lfs topt hl hne hwf hti hcond hc
    obtain ⟨vs, hvs⟩ := labelsValues_ok lfs hwf
    simp [parse_props, hl, hne, hvs, hti, hcond, hc]

/-- Witness for `parse_props_null_conditions`, one concrete input per
branch: a non-dict record; an empty record; a record with labels only; a
record with a string-shaped `claims`; and a record with no `claims` key. -/
theorem parse_props_null_conditions_witness :
    parse_props (.arr []) [] = .ok none ∧
    parse_props (.obj []) [] = .ok none ∧
    parse_props (.obj [("labels", .obj [("en", .obj [("value", .str "E")])])]) [] = .ok none ∧
    parse_props (.obj (baseFields ++ [("claims", .str "bad")])) [] = .ok none ∧
    parse_props entityDocNoClaims [] = .error (.keyError "claims") := by
  have h := parse_props_null_conditions []
  refine ⟨h.1 (.arr []) rfl, h.2.1 [] rfl, ?_, ?_, ?_⟩
  · exact h.2.2.1 [("labels", .obj [("en", .obj [("value", .str "E")])])]
      [("en", .obj [("value", .str "E")])] (some (.str "E")) rfl rfl rfl rfl rfl
  · exact h.2.2.2.1 (baseFields ++ [("claims", JVal.str "bad")])
      [("en", .obj [("value", .str "E")])] (some (.str "E")) (JVal.str "bad")
      rfl rfl rfl rfl rfl rfl rfl
  · exact h.2.2.2.2 baseFields [("en", .obj [("value", .str "E")])] (some (.str "E"))
      rfl rfl rfl rfl rfl rfl

/-! ## C8 -/

/-- C8 counterexample: on "Cities\tin\tFrance" (tab-separated) the code's
regex `(.+?)( (in|of|by) )(.+)` — literal spaces — does not match, so the
category contributes nothing; the spec's regex
`^(.+?)\s(in|of|by)\s(.+)$` matches (`\s` covers tabs) with head group
"Cities".  The two regexes therefore differ, refuting the claim that the
derivation applies the spec's regex. -/
theorem general_regex_counterexample :
    extact_general "Cities\tin\tFrance" = none ∧
    spec_general "Cities\tin\tFrance" = some "Cities" ∧
    (none : Option String) ≠ some "Cities" := by
  exact ⟨rfl, rfl, by simp⟩

/-- Characterization of the separator-and-tail test of the code's regex. -/
theorem trySep_iff (rest : List Char) :
    trySep rest = true ↔
      ∃ mid t r, rest = ' ' :: mid ++ ' ' :: t :: r ∧
        (mid = ['i', 'n'] ∨ mid = ['o', 'f'] ∨ mid = ['b', 'y']) ∧ t ≠ '\n' := by
  constructor
  · intro h
    rcases rest with _ | ⟨c1, _ | ⟨c2, _ | ⟨c3, _ | ⟨c4, _ | ⟨c5, tail⟩⟩⟩⟩⟩
    · simp [trySep] at h
    · simp [trySep] at h
    · simp [trySep] at h
    · simp [trySep] at h
    · simp [trySep] at h
    simp only [trySep, Bool.and_eq_true, Bool.or_eq_true,
      decide_eq_true_eq, Bool.not_eq_true', decide_eq_false_iff_not] at h
    obtain ⟨⟨⟨h1, h2⟩, h3⟩, h4⟩ := h
    subst h1
    subst h3
    rcases h2 with (⟨ha, hb⟩ | ⟨ha, hb⟩) | ⟨ha, hb⟩ <;> subst ha <;> subst hb
    · exact ⟨['i', 'n'], c5, tail, rfl, Or.inl rfl, h4⟩
    · exact ⟨['o', 'f'], c5, tail, rfl, Or.inr (Or.inl rfl), h4⟩
    · exact ⟨['b', 'y'], c5, tail, rfl, Or.inr (Or.inr rfl), h4⟩
  · rintro ⟨mid, t, r, hrest, hmid, ht⟩
    subst hrest
    rcases hmid with h | h | h <;> subst h <;> simp [trySep, ht]

/-- The head scan of the code's regex succeeds exactly on the decomposable
strings: head ++ space ++ (in|of|by) ++ space ++ one non-newline character
++ anything, the head non-empty and newline-free. -/
theorem goHead_isSome (cs : List Char) : ∀ acc,
    ((goHead acc cs).isSome = true ↔
      ∃ hd mid t r, cs = hd ++ ' ' :: mid ++ ' ' :: t :: r ∧
        (mid = ['i', 'n'] ∨ mid = ['o', 'f'] ∨ mid = ['b', 'y']) ∧
        hd ≠ [] ∧ '\n' ∉ hd ∧ t ≠ '\n') := by
  induction cs with
  | nil =>
    intro acc
    constructor
    · intro h
      simp [goHead] at h
    · rintro ⟨hd, mid, t, r, h, _, _, _, _⟩
      exfalso
      have hlen := congrArg List.length h
      simp [List.length_append] at hlen
      omega
  | cons c rest ih =>
    intro acc
    by_cases hc : c = '\n'
    · subst hc
      constructor
      · intro h
        simp [goHead] at h
      · rintro ⟨hd, mid, t, r, h, hmid, hne, hnl, ht⟩
        exfalso
        cases hd with
        | nil => simp at h
        | cons a hd2 =>
          simp only [List.cons_append, List.cons.injEq] at h
          exact hnl (by rw [← h.1]; exact List.mem_cons_self '\n' hd2)
    · by_cases hs : trySep rest = true
      · constructor
        · intro _
          obtain ⟨mid, t, r, hrest, hmid, ht⟩ := (trySep_iff rest).mp hs
          refine ⟨[c], mid, t, r, by simp [hrest], hmid, by simp, ?_, ht⟩
          intro hmem
          simp only [List.mem_singleton] at hmem
          exact hc hmem.symm
        · intro _
          simp [goHead, hc, hs]
      · have hstep : goHead acc (c :: rest) = goHead (acc ++ [c]) rest := by
          simp [goHead, hc, hs]
        rw [hstep, ih (acc ++ [c])]
        constructor
        · rintro ⟨hd, mid, t, r, hrest, hmid, hne, hnl, ht⟩
          refine ⟨c :: hd, mid, t, r, by simp [hrest], hmid, by simp, ?_, ht⟩
          intro hmem
          rcases List.mem_cons.mp hmem with hmem | hmem
          · exact hc hmem.symm
          · exact hnl hmem
        · rintro ⟨hd, mid, t, r, hrest, hmid, hne, hnl, ht⟩
          cases hd with
          | nil => exact absurd rfl hne
          | cons a hd2 =>
            simp only [List.cons_append, List.cons.injEq] at hrest
            obtain ⟨hca, hrest2⟩ := hrest
            cases hd2 with
            | nil =>
              exfalso
              exact hs ((trySep_iff rest).mpr ⟨mid, t, r, by simpa using hrest2, hmid, ht⟩)
            | cons a2 hd3 =>
              refine ⟨a2 :: hd3, mid, t, r, by simpa using hrest2, hmid, by simp, ?_, ht⟩
              intro hmem
              exact hnl (List.mem_cons_of_mem a hmem)

/-- C8 (amended): the `general` derivation applies the code's regex
`(.+?)( (in|of|by) )(.+)` with `re.match` — separators are literal single
spaces and there is no end anchor — contributing the non-greedy head group
on a match and nothing otherwise.  A category matches exactly when it
decomposes as head ++ ' ' ++ (in|of|by) ++ ' ' ++ one further non-newline
character ++ anything, with the head non-empty and newline-free.
"Cities in France" contributes "Cities"; "Paris" contributes nothing. -/
theorem extact_general_characterization :
    (∀ s : String, (extact_general s).isSome = true ↔
      ∃ hd mid t r, s.data = hd ++ ' ' :: mid ++ ' ' :: t :: r ∧
        (mid = ['i', 'n'] ∨ mid = ['o', 'f'] ∨ mid = ['b', 'y']) ∧
        hd ≠ [] ∧ '\n' ∉ hd ∧ t ≠ '\n') ∧
    extact_general "Cities in France" = some "Cities" ∧
    extact_general "Paris" = none := by
  refine ⟨fun s => ?_, rfl, rfl⟩
  have hmap : ((goHead [] s.data).map String.mk).isSome = (goHead [] s.data).isSome := by
    cases goHead [] s.data <;> rfl
  rw [extact_general, hmap]
  exact goHead_isSome s.data []

/-- Witness for `extact_general_characterization`: "Cities of Light"
decomposes and the derivation contributes its head. -/
theorem extact_general_characterization_witness :
    (extact_general "Cities of Light").isSome = true := by
  refine (extact_general_characterization.1 "Cities of Light").mpr ?_
  exact ⟨"Cities".data, ['o', 'f'], 'L', "ight".data, by decide,
    Or.inr (Or.inl rfl), by decide, by decide, by decide⟩

/-! ## C9 (amended theorem) -/

/-- All three buffered fields are present in a page's `_values` dict. -/
def hasAllFields (p : WikiPage) : Bool :=
  (vGet p.values "title").isSome && (vGet p.values "text").isSome &&
    (vGet p.values "id").isSome

/-- With its three fields buffered, a wikitext page can only be emitted or
caught-and-dropped, never abort the stream. -/
theorem handle_wiki_page_ok (order : List String → List String) (p : WikiPage)
    (h : hasAllFields p = true) : ∃ out, handle_wiki_page order p = .ok out := by
  simp only [hasAllFields, Bool.and_eq_true, Option.isSome_iff_exists] at h
  obtain ⟨⟨⟨t, ht⟩, x, hx⟩, i, hi⟩ := h
  cases hparse : p.parse with
  | err =>
    refine ⟨(none, ["mwparser error for: " ++ t]), ?_⟩
    simp [handle_wiki_page, hx, hparse, ht]
  | ok tms wls =>
    simp only [handle_wiki_page, hx, hparse, ht]
    split
    · exact ⟨_, rfl⟩
    · rw [hi]
      exact ⟨_, rfl⟩

/-- When every decoded body parses without an uncaught exception, the entity
stream processes to the end and counts exactly the decodable pages. -/
theorem run_entity_stream_all_ok (m : IdMap) (bodies : List (Option JVal))
    (hok : ∀ d, some d ∈ bodies → ∃ x, parse_props d m = .ok x) :
    run_entity_stream bodies m = ((bodies.filter Option.isSome).length, none) := by
  induction bodies with
  | nil => rfl
  | cons b rest ih =>
    have hrest := ih (fun d hd => hok d (List.mem_cons_of_mem b hd))
    cases b with
    | none =>
      simp [run_entity_stream, handle_entity_page, hrest, List.filter_cons]
    | some d =>
      obtain ⟨x, hx⟩ := hok d (List.mem_cons_self _ _)
      have hh : handle_entity_page (some d) m = .ok true := by
        simp [handle_entity_page, hx]
      simp [run_entity_stream, hh, hrest, List.filter_cons, Nat.add_comm]

/-- C9 (amended): only the failure kinds the handlers catch are isolated at
the Record Builder boundary.  The wikitext pipeline never aborts on pages
carrying their three buffered fields — a parse-failing page is logged and
dropped with the rest of the stream processed unchanged — and in the
entity pipeline a JSON-decode failure is caught, so N pages with one
undecodable page among otherwise well-formed pages yield N−1 counted
records.  A record whose processing raises outside the caught kinds
(`ParserError`/`ValueError`; e.g. the missing-`claims` `KeyError`) aborts
the whole stream instead. -/
theorem per_record_failure_isolation (order : List String → List String) (m : IdMap) :
    (∀ pages : List WikiPage, (∀ p ∈ pages, hasAllFields p = true) →
      (run_wiki_stream order pages).2 = none) ∧
    (∀ (p : WikiPage) (rest : List WikiPage) (t : String),
      vGet p.values "text" ≠ none → p.parse = .err → vGet p.values "title" = some t →
      handle_wiki_page order p = .ok (none, ["mwparser error for: " ++ t]) ∧
      run_wiki_stream order (p :: rest) = run_wiki_stream order rest) ∧
    (∀ bodies : List (Option JVal),
      (∀ d, some d ∈ bodies → ∃ x, parse_props d m = .ok x) →
      run_entity_stream bodies m = ((bodies.filter Option.isSome).length, none)) ∧
    (∀ gs1 gs2 : List (Option JVal),
      (∀ d, some d ∈ gs1 ++ gs2 → ∃ x, parse_props d m = .ok x) →
      (∀ b ∈ gs1 ++ gs2, b.isSome = true) →
      run_entity_stream (gs1 ++ none :: gs2) m = (gs1.length + gs2.length, none)) := by
  refine ⟨?_, ?_, fun bodies h => run_entity_stream_all_ok m bodies h, ?_⟩
  · intro pages hall
    induction pages with
    | nil => rfl
    | cons p rest ih =>
      obtain ⟨out, hout⟩ := handle_wiki_page_ok order p (hall p (List.mem_cons_self _ _))
      obtain ⟨r, lg⟩ := out
      simp only [run_wiki_stream, hout]
      exact ih (fun q hq => hall q (List.mem_cons_of_mem p hq))
  · intro p rest t hx hparse ht
    obtain ⟨x, hxx⟩ := Option.ne_none_iff_exists'.mp hx
    have h1 : handle_wiki_page order p = .ok (none, ["mwparser error for: " ++ t]) := by
      simp [handle_wiki_page, hxx, hparse, ht]
    refine ⟨h1, ?_⟩
    simp [run_wiki_stream, h1]
  · intro gs1 gs2 hok hsome
    have hmem : ∀ d, some d ∈ gs1 ++ none :: gs2 → ∃ x, parse_props d m = .ok x := by
      intro d hd
      apply hok d
      rcases List.mem_append.mp hd with h | h
      · exact List.mem_append_left _ h
      · rcases List.mem_cons.mp h with h | h
        · exact absurd h (by simp)
        · exact List.mem_append_right _ h
    rw [run_entity_stream_all_ok m _ hmem]
    have h1 : gs1.filter Option.isSome = gs1 :=
      List.filter_eq_self.mpr (fun b hb => hsome b (List.mem_append_left _ hb))
    have h2 : gs2.filter Option.isSome = gs2 :=
      List.filter_eq_self.mpr (fun b hb => hsome b (List.mem_append_right _ hb))
    rw [List.filter_append, List.filter_cons, h1, h2]
    simp

/-- Witness for `per_record_failure_isolation`: a 3-page entity stream with
one undecodable page in the middle counts the other two. -/
theorem per_record_failure_isolation_witness :
    run_entity_stream [some goodEntityDoc, none, some goodEntityDoc] [] = (2, none) := by
  have hok : ∀ d, some d ∈ ([some goodEntityDoc] ++ [some goodEntityDoc] :
      List (Option JVal)) → ∃ x, parse_props d [] = .ok x := by
    intro d hd
    simp only [List.mem_append, List.mem_singleton, Option.some.injEq] at hd
    rcases hd with hd | hd <;> subst hd <;> exact ⟨_, rfl⟩
  have hsome : ∀ b ∈ ([some goodEntityDoc] ++ [some goodEntityDoc] :
      List (Option JVal)), b.isSome = true := by
    intro b hb
    simp only [List.mem_append, List.mem_singleton] at hb
    rcases hb with hb | hb <;> subst hb <;> rfl
  exact (per_record_failure_isolation id []).2.2.2 [some goodEntityDoc]
    [some goodEntityDoc] hok hsome
